import Mathlib

/-!
Shallow embedding of `src/markdown/from_markdown.js`: the token-to-tree
conversion engine of the ProseMirror markdown parser.  JavaScript strings
are Lean `String`s, JavaScript values appearing as token attributes are
`JSVal`, the mutable `MarkdownParseState` object is threaded explicitly as
a `State` record, and the handler table built by `summarizeTokens` /
`registerTokens` is an association list from token-type names to a closed
inductive of the handler closures occurring in the file.  Fallible paths
(a missing handler throws, popping an empty stack crashes) are modelled
with `Except` / `Option`.

The node and mark model (`../model`) is not part of the sources; the few
operations the parser uses (`Mark.sameSet`, `mark.addToSet`,
`type.removeFromSet`, `type.createAutoFill`, `schema.text`) are modelled
from the specification, as marked on each definition.
-/

namespace FromMarkdown

/-- JavaScript numbers as they occur in this file: either NaN or an integer
(no fractional values arise from the parser's attribute computations). -/
inductive JNum where
  | nan
  | int (i : Int)
deriving DecidableEq, Repr

/-- JavaScript values occurring as token attribute values and node
attribute values in `from_markdown.js`. -/
inductive JSVal where
  | undefined
  | null
  | bool (b : Bool)
  | num (n : JNum)
  | str (s : String)
deriving DecidableEq, Repr

/-- JavaScript truthiness, restricted to `JSVal`. -/
def JSVal.truthy : JSVal → Bool
  | .undefined => false
  | .null => false
  | .bool b => b
  | .num .nan => false
  | .num (.int i) => decide (i ≠ 0)
  | .str s => decide (s ≠ "")

/-- The JavaScript `a || b` operator: `b` when `a` is falsy, else `a`. -/
def jsOr (a b : JSVal) : JSVal :=
  if a.truthy then a else b

/-- Digits-only string to `Nat` (helper for the `Number(...)` model). -/
def digitsToNat (cs : List Char) : Option Nat :=
  if cs ≠ [] ∧ cs.all Char.isDigit then
    some (cs.foldl (fun a c => a * 10 + (c.toNat - 48)) 0)
  else
    none

/-- Signed decimal integer literal to `Int` (helper for `Number(...)`). -/
def readInt (cs : List Char) : Option Int :=
  match cs with
  | '-' :: rest => (digitsToNat rest).map (fun n => -(n : Int))
  | '+' :: rest => (digitsToNat rest).map (fun n => (n : Int))
  | _ => (digitsToNat cs).map (fun n => (n : Int))

/-- Whitespace as stripped by the JavaScript ToNumber conversion. -/
def jsWhitespace (c : Char) : Bool :=
  c = ' ' || c = '\t' || c = '\n' || c = '\r'

/-- The JavaScript `Number(string)` conversion, on the fragment this file
can feed it: the empty / all-whitespace string converts to 0, a decimal
integer literal (after trimming surrounding whitespace) converts to its
value, any other string converts to NaN.  (Float and hex literals never
occur as markdown-it attribute values used here.) -/
def strToNum (s : String) : JNum :=
  let t := ((s.data.dropWhile jsWhitespace).reverse.dropWhile jsWhitespace).reverse
  if t = [] then .int 0
  else
    match readInt t with
    | some i => .int i
    | none => .nan

/-- The JavaScript `Number(x)` conversion on `JSVal`. -/
def jsNumber : JSVal → JSVal
  | .undefined => .num .nan
  | .null => .num (.int 0)
  | .bool b => .num (.int (if b then 1 else 0))
  | .num n => .num n
  | .str s => .num (strToNum s)

/-- Attribute bags (`{name: value, ...}` objects) as association lists. -/
abbrev AttrList := List (String × JSVal)

/-- Marks as the parser sees them: a mark type (identified by name) plus an
attribute bag (`none` when the mark was created without attributes).
Modelled from the spec: marks are compared by type identity plus attribute
equality. -/
structure Mark where
  type : String
  attrs : Option AttrList
deriving DecidableEq, Repr

/-- Modelled from the spec: `add(mark)` of the Mark Set (`mark.addToSet`
in `../model`, absent from the sources) returns a new set with the mark
inserted, a no-op if an identical type+attributes entry is already
present; new marks are appended at the end. -/
def addToSet (m : Mark) (s : List Mark) : List Mark :=
  if m ∈ s then s else s ++ [m]

/-- Modelled from the spec: `remove(type)` of the Mark Set
(`type.removeFromSet` in `../model`, absent from the sources) returns a
new set with every entry of that mark type removed, regardless of
attributes; absent-case is a no-op. -/
def removeFromSet (t : String) (s : List Mark) : List Mark :=
  s.filter (fun m => m.type ≠ t)

/-- Modelled from the spec: `Mark.sameSet` (in `../model`, absent from the
sources) — two sets are equal iff they contain the same marks by
type+attribute identity, regardless of order. -/
def sameSet (a b : List Mark) : Bool :=
  a.all (fun m => decide (m ∈ b)) && b.all (fun m => decide (m ∈ a))

/-- markdown-it tokens: a type name, a nullable attribute array, literal
content, a child-token array (empty standing for null), a tag and a markup
string.  Read-only input to the parser. -/
inductive Token where
  | mk (type : String) (attrs : Option AttrList) (content : String)
       (children : List Token) (tag : String) (markup : String)

/-- Type name of a token. -/
def Token.type : Token → String
  | .mk t _ _ _ _ _ => t

/-- Attribute array of a token (`none` models the JavaScript `null`). -/
def Token.attrs : Token → Option AttrList
  | .mk _ a _ _ _ _ => a

/-- Literal content of a token. -/
def Token.content : Token → String
  | .mk _ _ c _ _ _ => c

/-- Child tokens of a token. -/
def Token.children : Token → List Token
  | .mk _ _ _ ch _ _ => ch

/-- Tag string of a token (e.g. `"h2"` on heading tokens). -/
def Token.tag : Token → String
  | .mk _ _ _ _ tg _ => tg

/-- Markup string of a token (e.g. the rule text on `hr` tokens). -/
def Token.markup : Token → String
  | .mk _ _ _ _ _ mu => mu

/-- Document nodes: either an element node with a type, attribute bag,
children and marks, or a text node with content and marks (`isText` in
the source distinguishes the two). -/
inductive Node where
  | elem (type : String) (attrs : Option AttrList) (content : List Node) (marks : List Mark)
  | text (s : String) (marks : List Mark)

/-- The marks carried by a node. -/
def Node.marksOf : Node → List Mark
  | .elem _ _ _ m => m
  | .text _ m => m

/-- Modelled from the spec: the schema's node-construction factory
`type.createAutoFill(attrs, content, marks)` (in `../model`, absent from
the sources) constructs a node of the type from attrs, children and marks;
the auto-fill of required structural children is the external schema's
content model and is the identity here (a missing content argument gives
an empty child list). -/
def createAutoFill (type : String) (attrs : Option AttrList)
    (content : Option (List Node)) (marks : List Mark) : Node :=
  .elem type attrs (content.getD []) marks

/-- One entry of the parse stack: `{type, attrs, content}` in the source. -/
structure Frame where
  type : String
  attrs : Option AttrList
  content : List Node

/-- The mutable fields of `MarkdownParseState` that the handlers touch:
the frame stack and the active mark set.  The JavaScript stack is an array
whose top is the last element; here the top of the stack is the head of
the list.  (The `schema`, `tokens` and cached `tokenTypes` fields are
threaded separately.) -/
structure State where
  stack : List Frame
  marks : List Mark

/-- The fresh state built by the `MarkdownParseState` constructor: one root
frame of the schema's `doc` node type with no attrs, and no active marks
(`noMarks`). -/
def initState : State :=
  { stack := [{ type := "doc", attrs := none, content := [] }], marks := [] }

/-- The source's `maybeMerge(a, b)`: when both nodes are text nodes with
the same mark set, a copy of `a` holding the concatenated text (and `a`'s
marks); otherwise nothing. -/
def maybeMerge (a b : Node) : Option Node :=
  match a, b with
  | .text sa ma, .text sb mb =>
    if sameSet ma mb then some (.text (sa ++ sb) ma) else none
  | _, _ => none

/-- The source's `push(elt)`: append to the top frame's content if the
stack is non-empty, else do nothing. -/
def push (st : State) (n : Node) : State :=
  match st.stack with
  | [] => st
  | f :: rest => { st with stack := { f with content := f.content ++ [n] } :: rest }

/-- The source's `addText(text)`: build a text node carrying the active
marks (`schema.text(text, marks)`, modelled from the spec as constructing
a text node); if the top frame's last child merges with it, replace that
child by the merged run, else append the new node. -/
def addText (st : State) (text : String) : State :=
  match st.stack with
  | [] => st
  | f :: rest =>
    let node := Node.text text st.marks
    let content :=
      match f.content.getLast? with
      | some last =>
        match maybeMerge last node with
        | some merged => f.content.dropLast ++ [merged]
        | none => f.content ++ [node]
      | none => f.content ++ [node]
    { st with stack := { f with content := content } :: rest }

/-- The source's `openMark(mark)`: `this.marks = mark.addToSet(this.marks)`. -/
def openMark (st : State) (m : Mark) : State :=
  { st with marks := addToSet m st.marks }

/-- The source's `closeMark(mark)`: `this.marks = mark.removeFromSet(this.marks)`,
where the argument is a mark type and removal is by type. -/
def closeMark (st : State) (t : String) : State :=
  { st with marks := removeFromSet t st.marks }

/-- The source's `addNode(type, attrs, content)`: construct the node via
`createAutoFill` with the active marks, push it onto the top frame, and
return it. -/
def addNode (st : State) (type : String) (attrs : Option AttrList)
    (content : Option (List Node)) : Node × State :=
  let node := createAutoFill type attrs content st.marks
  (node, push st node)

/-- The source's `openNode(type, attrs)`: push a fresh frame. -/
def openNode (st : State) (type : String) (attrs : Option AttrList) : State :=
  { st with stack := { type := type, attrs := attrs, content := [] } :: st.stack }

/-- The source's `closeNode()`: first `if (this.marks.length) this.marks = noMarks`,
then pop the top frame and `addNode` it.  Popping an empty stack is a
crash in JavaScript (`undefined.type`), modelled as `none`. -/
def closeNode (st : State) : Option (Node × State) :=
  let st1 := if st.marks.isEmpty then st else { st with marks := [] }
  match st1.stack with
  | [] => none
  | info :: rest =>
    some (addNode { st1 with stack := rest } info.type info.attrs (some info.content))

/-- The source's `getAttr(tok, name)`: scan the token's attribute array
for the first pair whose name matches; `undefined` when the array is null
or no pair matches. -/
def getAttr (tok : Token) (name : String) : JSVal :=
  match tok.attrs with
  | none => .undefined
  | some l =>
    match l.find? (fun p => p.1 == name) with
    | some p => p.2
    | none => .undefined

/-- The attribute-computing functions occurring as `attrs` values of the
parse specs registered in this file (ordered list, heading, link). -/
inductive AttrFn where
  | orderedList
  | heading
  | link
deriving DecidableEq, Repr

/-- Interpretation of the `attrs` functions of the file's parse specs:
the ordered-list spec computes `{order: Number(state.getAttr(tok, "order") || 1)}`,
the heading spec computes `{level: tok.tag.slice(1)}`, and the link spec
computes `{href: state.getAttr(tok, "href"), title: state.getAttr(tok, "title") || null}`. -/
def applyAttrFn : AttrFn → State → Token → AttrList
  | .orderedList, _, tok => [("order", jsNumber (jsOr (getAttr tok "order") (.num (.int 1))))]
  | .heading, _, tok => [("level", .str (tok.tag.drop 1))]
  | .link, _, tok => [("href", getAttr tok "href"), ("title", jsOr (getAttr tok "title") .null)]

/-- The `attrs` property of a parse spec: absent (`undefined`), a static
attribute object, or a function of the state and token. -/
inductive AttrsSpec where
  | missing
  | static (a : AttrList)
  | fn (f : AttrFn)
deriving DecidableEq, Repr

/-- The attribute computation of the compiled open handlers:
`typeof info.attrs == "function" ? info.attrs(state, tok) : info.attrs`. -/
def computeAttrs (a : AttrsSpec) (st : State) (tok : Token) : Option AttrList :=
  match a with
  | .missing => none
  | .static v => some v
  | .fn f => some (applyAttrFn f st tok)

/-- The custom `parse` functions occurring in the file (`parseCodeBlock`,
and the `hr`, `image`, `hardbreak` and `code_inline` handlers). -/
inductive CustomFn where
  | codeBlock
  | horizontalRule
  | image
  | hardBreak
  | codeInline
deriving DecidableEq, Repr

/-- The source's `trimTrailingNewline(str)`: drop the final character when
it is a newline, else return the string unchanged. -/
def trimTrailingNewline (s : String) : String :=
  match s.data.getLast? with
  | some c => if c = '\n' then ⟨s.data.dropLast⟩ else s
  | none => s

/-- Errors raised while compiling parse specs into the handler table: the
`AssertionError` for an unrecognized spec (falsy `parse`), or the
`TypeError` from calling `.bind` on a truthy non-function `parse` value. -/
inductive ConfigError where
  | unrecognizedSpec
  | notAFunction
deriving DecidableEq, Repr

/-- Errors that abort a parse: an unsupported token type (the `throw` in
`parseTokens`), a pop of an empty frame stack (a JavaScript crash), or a
configuration error raised while building the registry. -/
inductive ParseError where
  | unsupportedToken (name : String)
  | stackUnderflow
  | config (e : ConfigError)

/-- Interpretation of the custom parse functions, with `this` bound to the
owning type (passed as its name). -/
def applyCustom (type : String) (f : CustomFn) (st : State) (tok : Token) :
    Except ParseError State :=
  match f with
  | .codeBlock =>
    let st1 := openNode st type none
    let st2 := addText st1 (trimTrailingNewline tok.content)
    match closeNode st2 with
    | none => .error .stackUnderflow
    | some (_, st3) => .ok st3
  | .horizontalRule =>
    .ok (addNode st type (some [("markup", .str tok.markup)]) none).2
  | .image =>
    let alt :=
      match tok.children with
      | [] => jsOr .undefined .null
      | c :: _ => jsOr (.str c.content) .null
    .ok (addNode st type
      (some [("src", getAttr tok "src"),
             ("title", jsOr (getAttr tok "title") .null),
             ("alt", alt)]) none).2
  | .hardBreak =>
    .ok (addNode st type none none).2
  | .codeInline =>
    let st1 := openMark st { type := type, attrs := none }
    let st2 := addText st1 tok.content
    .ok (closeMark st2 type)

/-- The compiled handler closures that can appear as values of the token
table: the three built-ins installed by `summarizeTokens`, and the
closures built by `registerTokens` for block, mark and custom specs. -/
inductive Handler where
  | text
  | inline
  | softbreak
  | blockOpen (type : String) (attrs : AttrsSpec)
  | blockClose
  | markOpen (type : String) (attrs : AttrsSpec)
  | markClose (type : String)
  | custom (type : String) (f : CustomFn)

/-- The token table: a JavaScript object mapping token-type names to
handlers, as an association list. -/
abbrev Table := List (String × Handler)

/-- Property assignment `tokens[k] = h` on the table object: any existing
entry for the key is replaced, new keys are added. -/
def tset (tbl : Table) (k : String) (h : Handler) : Table :=
  tbl.filter (fun p => p.1 ≠ k) ++ [(k, h)]

/-- Property lookup `tokens[k]` on the table object. -/
def tlookup (tbl : Table) (k : String) : Option Handler :=
  (tbl.find? (fun p => p.1 == k)).map (fun p => p.2)

/-- The `parse` property of a parse spec: a string, one of the custom
functions of this file, or absent (`undefined`). -/
inductive ParseValue where
  | str (s : String)
  | fn (f : CustomFn)
  | missing
deriving DecidableEq, Repr

/-- A `parseMarkdown` spec: `{token, parse, attrs?}`. -/
structure ParseSpec where
  token : String
  parse : ParseValue
  attrs : AttrsSpec
deriving DecidableEq, Repr

/-- The source's `registerTokens(tokens, type, info)`: `parse == "block"`
installs an open handler (compute attrs, `openNode`) and a close handler
(`closeNode`) under the token name suffixed `_open` / `_close`;
`parse == "mark"` installs an open handler (compute attrs, `openMark` a
fresh mark of the type) and a close handler (`closeMark` by type)
likewise; a truthy `parse` otherwise installs `info.parse.bind(type)`
under the literal token name — which is a build-time `TypeError` when the
truthy value is not callable; a falsy `parse` raises the
`AssertionError` for an unrecognized spec. -/
def registerTokens (tbl : Table) (type : String) (info : ParseSpec) :
    Except ConfigError Table :=
  if info.parse = .str "block" then
    .ok (tset (tset tbl (info.token ++ "_open") (.blockOpen type info.attrs))
          (info.token ++ "_close") .blockClose)
  else if info.parse = .str "mark" then
    .ok (tset (tset tbl (info.token ++ "_open") (.markOpen type info.attrs))
          (info.token ++ "_close") (.markClose type))
  else
    match info.parse with
    | .fn f => .ok (tset tbl info.token (.custom type f))
    | .str s => if s = "" then .error .unrecognizedSpec else .error .notAFunction
    | .missing => .error .unrecognizedSpec

/-- Folding `registerTokens` over the schema's registered specs, in
registration order; the first error aborts the build. -/
def registerAll (tbl : Table) : List (String × ParseSpec) → Except ConfigError Table
  | [] => .ok tbl
  | (type, info) :: rest =>
    match registerTokens tbl type info with
    | .error e => .error e
    | .ok tbl1 => registerAll tbl1 rest

/-- The built-in handlers installed first by `summarizeTokens`: `text`
appends the token's literal content, `inline` recursively parses the
child tokens, `softbreak` appends a newline. -/
def builtinTokens : Table :=
  tset (tset (tset [] "text" .text) "inline" .inline) "softbreak" .softbreak

/-- The source's `summarizeTokens(schema)`: start from the built-ins and
compile every registered `parseMarkdown` spec; the schema's registry is
modelled as the list of (owning type name, spec) pairs in registration
order. -/
def summarizeTokens (specs : List (String × ParseSpec)) : Except ConfigError Table :=
  registerAll builtinTokens specs

mutual

/-- Dispatch of one token through the table: the body of the handler
closure found under the token's type name, or the `throw` of
`parseTokens` when no handler is registered. -/
def handle (tbl : Table) (st : State) : Token → Except ParseError State
  | tok@(.mk ty _ content children _ _) =>
    match tlookup tbl ty with
    | none => .error (.unsupportedToken ty)
    | some .text => .ok (addText st content)
    | some .inline => parseTokens tbl st children
    | some .softbreak => .ok (addText st "\n")
    | some (.blockOpen t aspec) => .ok (openNode st t (computeAttrs aspec st tok))
    | some .blockClose =>
      match closeNode st with
      | none => .error .stackUnderflow
      | some (_, st1) => .ok st1
    | some (.markOpen t aspec) =>
      .ok (openMark st { type := t, attrs := computeAttrs aspec st tok })
    | some (.markClose t) => .ok (closeMark st t)
    | some (.custom t f) => applyCustom t f st tok

/-- The source's `parseTokens(toks)` loop: dispatch each token in order,
propagating the thrown error of an unsupported token type. -/
def parseTokens (tbl : Table) (st : State) : List Token → Except ParseError State
  | [] => .ok st
  | tok :: rest =>
    match handle tbl st tok with
    | .error e => .error e
    | .ok st1 => parseTokens tbl st1 rest

end

/-- Stack length is preserved by `push`. -/
theorem push_stack_length (st : State) (n : Node) :
    (push st n).stack.length = st.stack.length := by
  unfold push
  split <;> simp_all

/-- The defensive mark reset at the head of `closeNode` leaves the stack
unchanged. -/
theorem ifMarks_stack (st : State) :
    (if st.marks.isEmpty then st else { st with marks := [] }).stack = st.stack := by
  split <;> rfl

/-- A successful `closeNode` shrinks the stack by exactly one frame. -/
theorem closeNode_stack_length {st : State} {d : Node} {st' : State}
    (h : closeNode st = some (d, st')) : st'.stack.length + 1 = st.stack.length := by
  simp only [closeNode] at h
  split at h
  · simp at h
  · rename_i info rest heq
    simp only [addNode, Option.some.injEq, Prod.mk.injEq] at h
    have hlen : st'.stack.length = rest.length := by
      rw [← h.2]; exact push_stack_length _ _
    calc st'.stack.length + 1 = rest.length + 1 := by rw [hlen]
      _ = (info :: rest).length := rfl
      _ = st.stack.length := by rw [← heq, ifMarks_stack]

/-- One-frame-per-iteration loop body of the forced unwind, with an
explicit iteration bound (each successful `closeNode` removes exactly one
frame, so the loop of `fromMarkdown` runs at most `stack.length` times;
running out of fuel coincides with the crash of popping an empty stack). -/
def unwindFuel : Nat → State → Option Node
  | 0, _ => none
  | n + 1, st =>
    match closeNode st with
    | none => none
    | some (doc, st') => if st'.stack.isEmpty then some doc else unwindFuel n st'

/-- The forced unwind of `fromMarkdown`:
`do { doc = state.closeNode() } while (state.stack.length)`.  The value of
the last `closeNode` is the result; a pop of an empty stack (possible only
when the token stream already popped the root) is the crash case `none`. -/
def unwind (st : State) : Option Node :=
  unwindFuel st.stack.length st

/-- Unfolding law of the unwind loop: a successful `closeNode` either
finishes (empty stack) with the node it produced, or continues on the new
state. -/
theorem unwind_eq_step {st : State} {doc : Node} {st' : State}
    (h : closeNode st = some (doc, st')) :
    unwind st = if st'.stack.isEmpty then some doc else unwind st' := by
  have hl := closeNode_stack_length h
  unfold unwind
  rw [← hl]
  simp only [unwindFuel, h]

/-- The source's `fromMarkdown(schema, text)` after tokenization (the
markdown-it lexer is an external collaborator; the token list is taken as
given): build the handler table from the schema's registered specs (a
configuration error aborts before any token is consumed), feed every
token through `parseTokens`, then repeatedly close the top frame until
the stack is empty and return the last node produced. -/
def fromMarkdown (specs : List (String × ParseSpec)) (tokens : List Token) :
    Except ParseError Node :=
  match summarizeTokens specs with
  | .error e => .error (.config e)
  | .ok tbl =>
    match parseTokens tbl initState tokens with
    | .error e => .error e
    | .ok st =>
      match unwind st with
      | none => .error .stackUnderflow
      | some doc => .ok doc

/-- The error message of the `throw` in `parseTokens`, rendered as in the
source. -/
def errorMessage : ParseError → String
  | .unsupportedToken name => "Token type `" ++ name ++ "` not supported by Markdown parser"
  | .stackUnderflow => "TypeError"
  | .config .unrecognizedSpec => "Unrecognized markdown parsing spec"
  | .config .notAFunction => "TypeError"

/-- The `parseMarkdown` specs registered at the bottom of the file, as
(owning type name, spec) pairs in registration order. -/
def markdownSpecs : List (String × ParseSpec) :=
  [("blockquote", { token := "blockquote", parse := .str "block", attrs := .missing }),
   ("paragraph", { token := "paragraph", parse := .str "block", attrs := .missing }),
   ("list_item", { token := "list_item", parse := .str "block", attrs := .missing }),
   ("bullet_list", { token := "bullet_list", parse := .str "block", attrs := .missing }),
   ("ordered_list", { token := "ordered_list", parse := .str "block", attrs := .fn .orderedList }),
   ("heading", { token := "heading", parse := .str "block", attrs := .fn .heading }),
   ("code_block", { token := "code_block", parse := .fn .codeBlock, attrs := .missing }),
   ("code_block", { token := "fence", parse := .fn .codeBlock, attrs := .missing }),
   ("horizontal_rule", { token := "hr", parse := .fn .horizontalRule, attrs := .missing }),
   ("image", { token := "image", parse := .fn .image, attrs := .missing }),
   ("hard_break", { token := "hardbreak", parse := .fn .hardBreak, attrs := .missing }),
   ("em", { token := "em", parse := .str "mark", attrs := .missing }),
   ("strong", { token := "strong", parse := .str "mark", attrs := .missing }),
   ("link", { token := "link", parse := .str "mark", attrs := .fn .link }),
   ("code", { token := "code_inline", parse := .fn .codeInline, attrs := .missing })]

/-- The handler table compiled from the file's registered specs (the
cached `schema.cached.markdownTokens` for the markdown schema). -/
def mdTable : Table :=
  (summarizeTokens markdownSpecs).toOption.getD []

/-- Marks are preserved by `push`. -/
theorem push_marks (st : State) (n : Node) : (push st n).marks = st.marks := by
  unfold push
  split <;> rfl

/-- The defensive mark reset at the head of `closeNode` yields the empty
mark set in either branch. -/
theorem ifMarks_marks (st : State) :
    (if st.marks.isEmpty then st else { st with marks := [] }).marks = [] := by
  split
  · next he => exact List.isEmpty_iff.mp he
  · rfl

/-- Computation law for `closeNode` on a non-empty stack: the popped
frame is constructed into a node carrying the (already reset) empty mark
set, and that node is pushed onto the remaining stack. -/
theorem closeNode_eq (st : State) (f : Frame) (rest : List Frame)
    (h : st.stack = f :: rest) :
    closeNode st = some (Node.elem f.type f.attrs f.content [],
      push { stack := rest, marks := [] } (Node.elem f.type f.attrs f.content [])) := by
  have hs : (if st.marks.isEmpty then st else { st with marks := [] }).stack = f :: rest :=
    (ifMarks_stack st).trans h
  simp only [closeNode, hs, addNode, createAutoFill, Option.getD, ifMarks_marks]

/-- Finding under a predicate is unaffected by first filtering with a
weaker predicate. -/
theorem find?_filter_of_imp {α : Type} (q r : α → Bool)
    (h : ∀ x, q x = true → r x = true) :
    ∀ l : List α, (l.filter r).find? q = l.find? q := by
  intro l
  induction l with
  | nil => rfl
  | cons x xs ih =>
    cases hr : r x with
    | true =>
      rw [List.filter_cons_of_pos hr, List.find?_cons, List.find?_cons]
      cases hq : q x <;> simp [ih]
    | false =>
      rw [List.filter_cons_of_neg (by simp [hr]), List.find?_cons]
      cases hq : q x with
      | true => exact absurd (h x hq) (by simp [hr])
      | false => simp [ih]

/-- Assigning a key makes it found. -/
theorem tlookup_tset_self (tbl : Table) (k : String) (h : Handler) :
    tlookup (tset tbl k h) k = some h := by
  unfold tlookup tset
  rw [List.find?_append]
  have h1 : List.find? (fun p => p.1 == k) (tbl.filter fun p => decide (p.1 ≠ k)) = none := by
    rw [List.find?_eq_none]
    intro x hx
    have hmem := List.mem_filter.mp hx
    simpa using hmem.2
  rw [h1]
  simp

/-- Assigning one key leaves every other key's binding unchanged. -/
theorem tlookup_tset_other (tbl : Table) (k k' : String) (h : Handler) (hne : k' ≠ k) :
    tlookup (tset tbl k h) k' = tlookup tbl k' := by
  unfold tlookup tset
  rw [List.find?_append]
  have h2 : List.find? (fun p => p.1 == k') [(k, h)] = none := by
    simp [Ne.symm hne]
  have h3 : (tbl.filter fun p => decide (p.1 ≠ k)).find? (fun p => p.1 == k') =
      tbl.find? (fun p => p.1 == k') := by
    apply find?_filter_of_imp
    intro x hx
    simp at hx ⊢
    rw [hx]
    exact hne
  rw [h2, h3]
  cases tbl.find? (fun p => p.1 == k') <;> simp

/-- Appending the same suffix to different suffixed names keeps them
distinct: the generated open and close token names never coincide. -/
theorem open_ne_close (t : String) : t ++ "_open" ≠ t ++ "_close" := by
  intro h
  have hlen := congrArg String.length h
  simp [String.length_append] at hlen
  exact absurd hlen (by decide)

/-- Every mark set equals itself as a set. -/
theorem sameSet_refl (s : List Mark) : sameSet s s = true := by
  simp [sameSet, List.all_eq_true]

/-- Consuming an appended token sequence is consuming the first part and
then, on success, the second. -/
theorem parseTokens_append (tbl : Table) (st : State) (xs ys : List Token) :
    parseTokens tbl st (xs ++ ys) =
      match parseTokens tbl st xs with
      | .error e => .error e
      | .ok st' => parseTokens tbl st' ys := by
  induction xs generalizing st with
  | nil => simp [parseTokens]
  | cons tok rest ih =>
    rw [List.cons_append]
    simp only [parseTokens]
    cases h : handle tbl st tok with
    | error e => simp
    | ok st1 => simp [ih]

/-- Compiling an appended spec list is compiling the first part and then,
on success, the second. -/
theorem registerAll_append (tbl : Table) (xs ys : List (String × ParseSpec)) :
    registerAll tbl (xs ++ ys) =
      match registerAll tbl xs with
      | .error e => .error e
      | .ok t => registerAll t ys := by
  induction xs generalizing tbl with
  | nil => simp [registerAll]
  | cons p rest ih =>
    rw [List.cons_append]
    cases p with
    | mk type info =>
      simp only [registerAll]
      cases h : registerTokens tbl type info with
      | error e => simp
      | ok tbl1 => simp [ih]

/-- The forced unwind always produces a node when the stack is non-empty
(strong induction on the stack height). -/
theorem unwind_total (n : Nat) : ∀ st : State, st.stack.length = n → st.stack ≠ [] →
    ∃ d, unwind st = some d := by
  induction n using Nat.strong_induction_on with
  | _ n ih =>
    intro st hlen hne
    obtain ⟨f, rest, hs⟩ : ∃ f rest, st.stack = f :: rest := by
      cases h : st.stack with
      | nil => exact absurd h hne
      | cons f rest => exact ⟨f, rest, rfl⟩
    have hc := closeNode_eq st f rest hs
    have hu := unwind_eq_step hc
    cases hrest : rest with
    | nil =>
      refine ⟨Node.elem f.type f.attrs f.content [], ?_⟩
      rw [hu, hrest]
      rfl
    | cons g rs =>
      set nd := Node.elem f.type f.attrs f.content [] with hnd
      have hstack : (push { stack := rest, marks := [] } nd).stack =
          { g with content := g.content ++ [nd] } :: rs := by
        rw [hrest]; rfl
      have hne2 : (push { stack := rest, marks := [] } nd).stack ≠ [] := by
        rw [hstack]; simp
      have hlt : (push { stack := rest, marks := [] } nd).stack.length < n := by
        rw [push_stack_length]
        simp only [hs] at hlen
        simp [hrest, ← hlen]
      obtain ⟨d, hd⟩ := ih _ hlt _ rfl hne2
      refine ⟨d, ?_⟩
      rw [hu]
      have : (push { stack := rest, marks := [] } nd).stack.isEmpty = false := by
        rw [hstack]; rfl
      rw [this]
      simpa using hd

/-! ## Claim theorems -/

/-- A concrete state with one open paragraph frame over the root and a
non-empty active mark set, used to settle the mark-reset ordering of
`closeNode`. -/
def c1State : State :=
  { stack := [{ type := "paragraph", attrs := none, content := [] },
              { type := "doc", attrs := none, content := [] }],
    marks := [{ type := "em", attrs := none }] }

/-- C1 counterexample: `closeNode` on a state whose active Mark Set is the
non-empty `[em]` constructs the popped frame's node with the EMPTY mark
set, not with the set that was active before the reset — the reset
`this.marks = noMarks` precedes the `addNode` call that reads `this.marks`,
so the claim's required snapshot does not happen. -/
theorem closeNode_marks_cex :
    c1State.marks = [{ type := "em", attrs := none }] ∧
    (closeNode c1State).map (fun p => p.1.marksOf) = some [] ∧
    ([] : List Mark) ≠ [{ type := "em", attrs := none }] :=
  ⟨rfl, rfl, by decide⟩

/-- C1 amended: for every call to `closeNode()` the active Mark Set is
reset to empty before the node-construction call reads it, so the node
constructed for the popped frame always receives the empty Mark Set (and
the state after the call carries no active marks). -/
theorem closeNode_node_gets_empty_marks (st : State) (d : Node) (st' : State)
    (h : closeNode st = some (d, st')) :
    d.marksOf = [] ∧ st'.marks = [] := by
  simp only [closeNode] at h
  split at h
  · simp at h
  · rename_i info rest heq
    simp only [addNode, createAutoFill, Option.some.injEq, Prod.mk.injEq] at h
    obtain ⟨hd, hst⟩ := h
    constructor
    · rw [← hd]
      show (if st.marks.isEmpty then st else { st with marks := [] }).marks = []
      exact ifMarks_marks st
    · rw [← hst, push_marks]
      exact ifMarks_marks st

/-- Witness for the amended C1 theorem at the concrete state `c1State`. -/
theorem closeNode_node_gets_empty_marks_witness :
    (Node.elem "paragraph" none [] []).marksOf = [] ∧
    (State.mk [⟨"doc", none, [Node.elem "paragraph" none [] []]⟩] []).marks = [] :=
  closeNode_node_gets_empty_marks c1State (Node.elem "paragraph" none [] []) _ rfl

/-- C3: a token whose type name has no handler in the compiled table makes
`parseTokens` fail with the unsupported-token error naming the offending
type, the whole `fromMarkdown` call returns that error and no tree, and
the rendered message identifies the type name. -/
theorem unsupported_token_aborts (specs : List (String × ParseSpec)) (tbl : Table)
    (pre : List Token) (tok : Token) (post : List Token) (st₀ : State)
    (h1 : summarizeTokens specs = .ok tbl)
    (h2 : parseTokens tbl initState pre = .ok st₀)
    (h3 : tlookup tbl tok.type = none) :
    parseTokens tbl initState (pre ++ tok :: post) = .error (.unsupportedToken tok.type) ∧
    fromMarkdown specs (pre ++ tok :: post) = .error (.unsupportedToken tok.type) ∧
    errorMessage (.unsupportedToken tok.type) =
      "Token type `" ++ tok.type ++ "` not supported by Markdown parser" := by
  have hs : handle tbl st₀ tok = .error (.unsupportedToken tok.type) := by
    cases tok with
    | mk ty a c ch tg mu =>
      simp only [Token.type] at h3 ⊢
      simp only [handle, h3]
  have hp : parseTokens tbl initState (pre ++ tok :: post) =
      .error (.unsupportedToken tok.type) := by
    rw [parseTokens_append, h2]
    simp only [parseTokens, hs]
  refine ⟨hp, ?_, rfl⟩
  simp only [fromMarkdown, h1, hp]

/-- Witness for C3 on a fabricated token type against the bare built-in
table (empty spec list). -/
theorem unsupported_token_aborts_witness :
    parseTokens builtinTokens initState [Token.mk "bogus" none "" [] "" ""] =
      .error (.unsupportedToken "bogus") ∧
    fromMarkdown [] [Token.mk "bogus" none "" [] "" ""] =
      .error (.unsupportedToken "bogus") ∧
    errorMessage (.unsupportedToken "bogus") =
      "Token type `bogus` not supported by Markdown parser" := by
  have h := unsupported_token_aborts [] builtinTokens []
    (Token.mk "bogus" none "" [] "" "") [] initState rfl rfl rfl
  simpa using h

/-- C4: under one open frame, two consecutive `addText` calls under the
same active Mark Set leave exactly one new text-run child holding the
concatenation of both contents; when the Mark Set changes between the two
calls to a non-equal set, two distinct sibling runs result, in original
order. -/
theorem addText_merge_law (T : String) (a : Option AttrList) (cs : List Node)
    (rest : List Frame) (m m₂ : List Mark) (s1 s2 : String)
    (hlast : ∀ l, cs.getLast? = some l → maybeMerge l (.text s1 m) = none) :
    addText (addText { stack := ⟨T, a, cs⟩ :: rest, marks := m } s1) s2 =
      { stack := ⟨T, a, cs ++ [Node.text (s1 ++ s2) m]⟩ :: rest, marks := m } ∧
    (sameSet m m₂ = false →
      addText { (addText { stack := ⟨T, a, cs⟩ :: rest, marks := m } s1) with marks := m₂ } s2 =
        { stack := ⟨T, a, cs ++ [Node.text s1 m, Node.text s2 m₂]⟩ :: rest, marks := m₂ }) := by
  have h1 : addText { stack := ⟨T, a, cs⟩ :: rest, marks := m } s1 =
      { stack := ⟨T, a, cs ++ [Node.text s1 m]⟩ :: rest, marks := m } := by
    cases hcs : cs.getLast? with
    | none => simp only [addText, hcs]
    | some l => simp only [addText, hcs, hlast l hcs]
  constructor
  · rw [h1]
    simp only [addText, List.getLast?_concat, maybeMerge, sameSet_refl, if_true,
      List.dropLast_concat]
  · intro hdiff
    rw [h1]
    simp only [addText, List.getLast?_concat, maybeMerge, hdiff, List.append_assoc,
      List.cons_append, List.nil_append]
    simp

/-- Witness for C4: concatenation under equal sets, two siblings when an
`em` mark distinguishes the sets. -/
theorem addText_merge_law_witness :
    (addText (addText { stack := [⟨"doc", none, []⟩], marks := [] } "a") "b" =
      { stack := [⟨"doc", none, [Node.text "ab" []]⟩], marks := [] }) ∧
    (addText { (addText { stack := [⟨"doc", none, []⟩], marks := [] } "a") with
        marks := [⟨"em", none⟩] } "b" =
      { stack := [⟨"doc", none, [Node.text "a" [], Node.text "b" [⟨"em", none⟩]]⟩],
        marks := [⟨"em", none⟩] }) :=
  ⟨(addText_merge_law "doc" none [] [] [] [⟨"em", none⟩] "a" "b"
      (fun l hl => by simp at hl)).1,
   (addText_merge_law "doc" none [] [] [] [⟨"em", none⟩] "a" "b"
      (fun l hl => by simp at hl)).2 (by decide)⟩

/-- C7: the compiled close handler of a mark declaration is registered
under the `_close` token name as removal by the owning type; removal
deletes every mark of that type regardless of attributes, keeps every
other mark, and is a no-op when no mark of the type is present. -/
theorem markClose_removes_type (t : String) (s : List Mark) :
    (∀ m, m ∈ removeFromSet t s → m.type ≠ t) ∧
    (∀ m, m ∈ s → m.type ≠ t → m ∈ removeFromSet t s) ∧
    ((∀ m, m ∈ s → m.type ≠ t) → removeFromSet t s = s) ∧
    (∀ (tbl : Table) (type : String) (info : ParseSpec) (tbl' : Table),
        info.parse = .str "mark" → registerTokens tbl type info = .ok tbl' →
        tlookup tbl' (info.token ++ "_close") = some (.markClose type)) ∧
    (∀ st : State, closeMark st t = { st with marks := removeFromSet t st.marks }) := by
  refine ⟨?_, ?_, ?_, ?_, fun st => rfl⟩
  · intro m hm
    have := List.mem_filter.mp hm
    simpa using this.2
  · intro m hm hne
    exact List.mem_filter.mpr ⟨hm, by simpa using hne⟩
  · intro hall
    apply List.filter_eq_self.mpr
    intro a ha
    simpa using hall a ha
  · intro tbl type info tbl' hpm hreg
    unfold registerTokens at hreg
    rw [hpm, if_neg (by decide), if_pos rfl] at hreg
    injection hreg with h
    rw [← h]
    exact tlookup_tset_self _ _ _

/-- Witness for C7: removing `em` from a set holding only a `strong` mark
is a no-op. -/
theorem markClose_removes_type_witness :
    removeFromSet "em" [⟨"strong", none⟩] = [⟨"strong", none⟩] :=
  (markClose_removes_type "em" [⟨"strong", none⟩]).2.2.1 (by decide)

/-- C8 counterexample: an `ordered_list` open token whose `order`
attribute is present but non-numeric (`"x"`) yields a frame — and a
document — whose `order` attribute is NaN (`Number("x")`), not the
claimed default 1. -/
theorem orderedList_nonNumeric_cex :
    fromMarkdown markdownSpecs
      [Token.mk "ordered_list_open" (some [("order", .str "x")]) "" [] "" ""] =
      .ok (.elem "doc" none
        [.elem "ordered_list" (some [("order", .num .nan)]) [] []] []) ∧
    JSVal.num .nan ≠ .num (.int 1) :=
  ⟨rfl, by decide⟩

/-- C8 amended: the ordered-list open handler derives `order` as
`Number(getAttr(tok, "order") || 1)`: the numeric value when the
attribute is present and numeric, 1 when it is absent or empty (falsy),
and NaN when it is present, non-empty and non-numeric. -/
theorem orderedList_order_attr (st : State) (tok : Token) :
    (getAttr tok "order" = .undefined →
      applyAttrFn .orderedList st tok = [("order", .num (.int 1))]) ∧
    (getAttr tok "order" = .str "" →
      applyAttrFn .orderedList st tok = [("order", .num (.int 1))]) ∧
    (∀ s2, getAttr tok "order" = .str s2 → s2 ≠ "" →
      applyAttrFn .orderedList st tok = [("order", .num (strToNum s2))]) ∧
    strToNum "3" = .int 3 ∧ strToNum "x" = .nan ∧
    (∀ a c ch tg mu st2,
      handle mdTable st2 (.mk "ordered_list_open" a c ch tg mu) =
        .ok (openNode st2 "ordered_list"
          (some (applyAttrFn .orderedList st2 (.mk "ordered_list_open" a c ch tg mu))))) := by
  refine ⟨?_, ?_, ?_, rfl, rfl, ?_⟩
  · intro h
    simp only [applyAttrFn, h]
    rfl
  · intro h
    simp only [applyAttrFn, h]
    rfl
  · intro s2 h hne
    simp only [applyAttrFn, h]
    simp [jsOr, JSVal.truthy, hne, jsNumber]
  · intro a c ch tg mu st2
    rfl

/-- Witness for the amended C8 theorem: absent attribute gives 1, the
numeric string "3" gives 3. -/
theorem orderedList_order_attr_witness :
    applyAttrFn .orderedList initState (Token.mk "ordered_list_open" none "" [] "" "") =
      [("order", .num (.int 1))] ∧
    applyAttrFn .orderedList initState
        (Token.mk "ordered_list_open" (some [("order", .str "3")]) "" [] "" "") =
      [("order", .num (.int 3))] :=
  ⟨(orderedList_order_attr initState (Token.mk "ordered_list_open" none "" [] "" "")).1 rfl,
   (orderedList_order_attr initState
      (Token.mk "ordered_list_open" (some [("order", .str "3")]) "" [] "" "")).2.2.1
      "3" rfl (by decide)⟩

/-- C9: `trimTrailingNewline` strips exactly one trailing newline —
content without a trailing newline is unchanged, one trailing newline is
removed, of two trailing newlines exactly one survives — and
`parseCodeBlock` adds exactly the trimmed content as the text inside the
code block node it opens and closes. -/
theorem code_block_trims_one_newline (s ty : String) (st : State) (tok : Token)
    (f : Frame) (rest : List Frame) (hstack : st.stack = f :: rest) :
    (s.data.getLast? ≠ some '\n' → trimTrailingNewline s = s) ∧
    trimTrailingNewline (s ++ "\n") = s ∧
    trimTrailingNewline (s ++ "\n\n") = s ++ "\n" ∧
    applyCustom ty .codeBlock st tok =
      .ok (State.mk (Frame.mk f.type f.attrs (f.content ++
        [Node.elem ty none [Node.text (trimTrailingNewline tok.content) st.marks] []])
        :: rest) []) := by
  have hd1 : (s ++ "\n").data = s.data ++ ['\n'] := by
    rw [String.data_append]
  have hd2 : (s ++ "\n\n").data = (s.data ++ ['\n']) ++ ['\n'] := by
    rw [String.data_append]
    simp
  refine ⟨?_, ?_, ?_, ?_⟩
  · intro h
    unfold trimTrailingNewline
    cases hl : s.data.getLast? with
    | none => rfl
    | some c =>
      have hc : c ≠ '\n' := by
        intro hcn
        exact h (hcn ▸ hl)
      simp [hc]
  · unfold trimTrailingNewline
    rw [hd1, List.getLast?_concat]
    show (if ('\n' : Char) = '\n' then (⟨(s.data ++ ['\n']).dropLast⟩ : String)
      else s ++ "\n") = s
    rw [if_pos rfl, List.dropLast_concat]
  · unfold trimTrailingNewline
    rw [hd2, List.getLast?_concat]
    show (if ('\n' : Char) = '\n' then (⟨((s.data ++ ['\n']) ++ ['\n']).dropLast⟩ : String)
      else s ++ "\n\n") = s ++ "\n"
    rw [if_pos rfl, List.dropLast_concat, ← hd1]
  · have ha : addText (openNode st ty none) (trimTrailingNewline tok.content) =
        { stack := (⟨ty, none, [Node.text (trimTrailingNewline tok.content) st.marks]⟩ :
            Frame) :: st.stack, marks := st.marks } := rfl
    simp only [applyCustom, ha, hstack]
    rw [closeNode_eq (State.mk ((⟨ty, none,
      [Node.text (trimTrailingNewline tok.content) st.marks]⟩ : Frame) :: f :: rest)
      st.marks) ⟨ty, none, [Node.text (trimTrailingNewline tok.content) st.marks]⟩
      (f :: rest) rfl]
    rfl

/-- Witness for C9 at concrete strings and a concrete code-block token. -/
theorem code_block_trims_one_newline_witness :
    trimTrailingNewline ("ab" ++ "\n") = "ab" ∧
    applyCustom "code_block" .codeBlock initState
        (Token.mk "code_block" none "hi\n" [] "" "") =
      .ok { stack := [⟨"doc", none,
              [Node.elem "code_block" none [Node.text "hi" []] []]⟩], marks := [] } := by
  have h := code_block_trims_one_newline "ab" "code_block" initState
    (Token.mk "code_block" none "hi\n" [] "" "") ⟨"doc", none, []⟩ [] rfl
  exact ⟨h.2.1, h.2.2.2⟩

/-- C10: the heading open handler stores `level` as the token's raw tag
string with its first character removed — a string, never converted to a
number — and the compiled handler for `heading_open` opens a frame with
exactly that attribute (tag "h2" yields the string "2"). -/
theorem heading_level_attr (st : State) (tok : Token) :
    applyAttrFn .heading st tok = [("level", .str (tok.tag.drop 1))] ∧
    (∀ v, ("level", v) ∈ applyAttrFn .heading st tok → ∃ s2, v = .str s2) ∧
    (∀ a c ch mu st2, handle mdTable st2 (.mk "heading_open" a c ch "h2" mu) =
       .ok (openNode st2 "heading" (some [("level", .str "2")]))) := by
  refine ⟨rfl, ?_, ?_⟩
  · intro v hv
    simp only [applyAttrFn, List.mem_singleton, Prod.mk.injEq, true_and] at hv
    exact ⟨_, hv⟩
  · intro a c ch mu st2
    rfl

/-- Witness for C10 at a concrete heading token with tag "h2". -/
theorem heading_level_attr_witness :
    applyAttrFn .heading initState (Token.mk "heading_open" none "" [] "h2" "") =
      [("level", .str "2")] ∧
    (∃ s2, JSVal.str "2" = .str s2) :=
  ⟨(heading_level_attr initState (Token.mk "heading_open" none "" [] "h2" "")).1,
   (heading_level_attr initState (Token.mk "heading_open" none "" [] "h2" "")).2.1
     (.str "2") (by decide)⟩

/-- C2: once the full token sequence is consumed, `fromMarkdown` returns
exactly the last node produced by the forced unwind; the unwind always
produces a document when the stack is non-empty; and when consumption
leaves one unclosed frame above the root, the returned document is the
root with that frame's node appended, its accumulated children intact and
in their original order. -/
theorem fromMarkdown_forced_unwind (specs : List (String × ParseSpec))
    (tokens : List Token) (tbl : Table) (st : State)
    (h1 : summarizeTokens specs = .ok tbl)
    (h2 : parseTokens tbl initState tokens = .ok st) :
    (∀ d, unwind st = some d → fromMarkdown specs tokens = .ok d) ∧
    (st.stack ≠ [] → ∃ d, unwind st = some d ∧ fromMarkdown specs tokens = .ok d) ∧
    (∀ T a cs ds m,
      st = State.mk [⟨T, a, cs⟩, ⟨"doc", none, ds⟩] m →
      fromMarkdown specs tokens =
        .ok (.elem "doc" none (ds ++ [.elem T a cs []]) [])) := by
  have hmain : ∀ d, unwind st = some d → fromMarkdown specs tokens = .ok d := by
    intro d hu
    simp only [fromMarkdown, h1, h2, hu]
  refine ⟨hmain, ?_, ?_⟩
  · intro hne
    obtain ⟨d, hd⟩ := unwind_total st.stack.length st rfl hne
    exact ⟨d, hd, hmain d hd⟩
  · intro T a cs ds m hst
    subst hst
    apply hmain
    have hc1 := closeNode_eq (State.mk [⟨T, a, cs⟩, ⟨"doc", none, ds⟩] m)
      ⟨T, a, cs⟩ [⟨"doc", none, ds⟩] rfl
    have hu1 := unwind_eq_step hc1
    have hpush1 : push (State.mk [(⟨"doc", none, ds⟩ : Frame)] []) (Node.elem T a cs []) =
        State.mk [⟨"doc", none, ds ++ [Node.elem T a cs []]⟩] [] := rfl
    rw [hpush1] at hu1
    rw [if_neg (by simp)] at hu1
    have hc2 := closeNode_eq
      (State.mk [(⟨"doc", none, ds ++ [Node.elem T a cs []]⟩ : Frame)] [])
      ⟨"doc", none, ds ++ [Node.elem T a cs []]⟩ [] rfl
    have hu2 := unwind_eq_step hc2
    simp only [push, List.isEmpty_nil, if_true] at hu2
    rw [hu1]
    exact hu2

/-- Witness for C2: a paragraph frame opened and never closed still
yields a single root document with the paragraph's text child intact. -/
theorem fromMarkdown_forced_unwind_witness :
    fromMarkdown markdownSpecs
      [Token.mk "paragraph_open" none "" [] "p" "",
       Token.mk "inline" none "" [Token.mk "text" none "a" [] "" ""] "" ""] =
      .ok (.elem "doc" none [.elem "paragraph" none [Node.text "a" []] []] []) := by
  have h := (fromMarkdown_forced_unwind markdownSpecs
    [Token.mk "paragraph_open" none "" [] "p" "",
     Token.mk "inline" none "" [Token.mk "text" none "a" [] "" ""] "" ""]
    _ _ rfl rfl).2.2 "paragraph" none [Node.text "a" []] [] [] rfl
  simpa using h

/-- C5: a parse declaration whose `parse` value is neither "block" nor
"mark" nor one of the callable parse functions makes `registerTokens`
fail, the whole registry build abort with that error, and every parse
call against that spec list fail before consuming any token. -/
theorem invalid_spec_aborts_build (pre : List (String × ParseSpec)) (type : String)
    (info : ParseSpec) (post : List (String × ParseSpec)) (tbl1 : Table)
    (hpre : registerAll builtinTokens pre = .ok tbl1)
    (hb : info.parse ≠ .str "block") (hm : info.parse ≠ .str "mark")
    (hf : ∀ g, info.parse ≠ .fn g) :
    ∃ e, registerTokens tbl1 type info = .error e ∧
      summarizeTokens (pre ++ (type, info) :: post) = .error e ∧
      ∀ toks : List Token, fromMarkdown (pre ++ (type, info) :: post) toks =
        .error (.config e) := by
  have he : ∃ e, registerTokens tbl1 type info = .error e := by
    unfold registerTokens
    rw [if_neg hb, if_neg hm]
    cases hp : info.parse with
    | str s =>
      by_cases hs : s = ""
      · exact ⟨.unrecognizedSpec, by simp [hs]⟩
      · exact ⟨.notAFunction, by simp [hs]⟩
    | fn g => exact absurd hp (hf g)
    | missing => exact ⟨.unrecognizedSpec, rfl⟩
  obtain ⟨e, he⟩ := he
  have hsum : summarizeTokens (pre ++ (type, info) :: post) = .error e := by
    unfold summarizeTokens
    rw [registerAll_append, hpre]
    simp only [registerAll, he]
  exact ⟨e, he, hsum, fun toks => by simp only [fromMarkdown, hsum]⟩

/-- Witness for C5: a spec with a missing `parse` value aborts the build
and every parse call. -/
theorem invalid_spec_aborts_build_witness :
    ∃ e, registerTokens builtinTokens "broken"
        (ParseSpec.mk "broken" .missing .missing) = .error e ∧
      summarizeTokens [("broken", ParseSpec.mk "broken" .missing .missing)] = .error e ∧
      ∀ toks : List Token,
        fromMarkdown [("broken", ParseSpec.mk "broken" .missing .missing)] toks =
          .error (.config e) := by
  have h := invalid_spec_aborts_build [] "broken" (ParseSpec.mk "broken" .missing .missing)
    [] builtinTokens rfl (by decide) (by decide) (fun g => by intro hcon; cases hcon)
  simpa using h

/-- C6: a block declaration for type T and token name t registers exactly
the two token names `t_open` and `t_close` (every other key's binding is
untouched); the open handler computes attributes — calling the `attrs`
function with the live state and token when it is a function, else using
the static value — and pushes a fresh frame of type T with them; the
close handler pops the top frame, constructs its node, and appends it to
the new top frame's children. -/
theorem block_spec_registers (tbl : Table) (type t : String) (aspec : AttrsSpec)
    (tbl' : Table)
    (hreg : registerTokens tbl type (ParseSpec.mk t (.str "block") aspec) = .ok tbl') :
    tlookup tbl' (t ++ "_open") = some (.blockOpen type aspec) ∧
    tlookup tbl' (t ++ "_close") = some .blockClose ∧
    (∀ k, k ≠ t ++ "_open" → k ≠ t ++ "_close" → tlookup tbl' k = tlookup tbl k) ∧
    (∀ g st tok, computeAttrs (.fn g) st tok = some (applyAttrFn g st tok)) ∧
    (∀ v st tok, computeAttrs (.static v) st tok = some v) ∧
    (∀ st a c ch tg mu, handle tbl' st (.mk (t ++ "_open") a c ch tg mu) =
       .ok (openNode st type (computeAttrs aspec st (.mk (t ++ "_open") a c ch tg mu)))) ∧
    (∀ st a c ch tg mu fr rest2, st.stack = fr :: rest2 →
       handle tbl' st (.mk (t ++ "_close") a c ch tg mu) =
         .ok (push (State.mk rest2 []) (Node.elem fr.type fr.attrs fr.content []))) := by
  have htbl : tbl' = tset (tset tbl (t ++ "_open") (.blockOpen type aspec))
      (t ++ "_close") .blockClose := by
    unfold registerTokens at hreg
    rw [if_pos rfl] at hreg
    injection hreg with h
    exact h.symm
  subst htbl
  have hlo : tlookup (tset (tset tbl (t ++ "_open") (.blockOpen type aspec))
      (t ++ "_close") .blockClose) (t ++ "_open") = some (.blockOpen type aspec) := by
    rw [tlookup_tset_other _ _ _ _ (open_ne_close t)]
    exact tlookup_tset_self _ _ _
  have hlc : tlookup (tset (tset tbl (t ++ "_open") (.blockOpen type aspec))
      (t ++ "_close") .blockClose) (t ++ "_close") = some .blockClose :=
    tlookup_tset_self _ _ _
  refine ⟨hlo, hlc, ?_, fun g st tok => rfl, fun v st tok => rfl, ?_, ?_⟩
  · intro k hko hkc
    rw [tlookup_tset_other _ _ _ _ hkc, tlookup_tset_other _ _ _ _ hko]
  · intro st a c ch tg mu
    simp only [handle, hlo]
  · intro st a c ch tg mu fr rest2 hst
    simp only [handle, hlc]
    rw [closeNode_eq st fr rest2 hst]

/-- Witness for C6 on a concrete paragraph block declaration. -/
theorem block_spec_registers_witness :
    tlookup [("paragraph_open", Handler.blockOpen "paragraph" .missing),
             ("paragraph_close", Handler.blockClose)] "paragraph_open" =
      some (.blockOpen "paragraph" .missing) ∧
    handle [("paragraph_open", Handler.blockOpen "paragraph" .missing),
            ("paragraph_close", Handler.blockClose)] initState
        (.mk "paragraph_open" none "" [] "" "") =
      .ok { initState with stack := Frame.mk "paragraph" none [] :: initState.stack } := by
  have h := block_spec_registers [] "paragraph" "paragraph" .missing
    [("paragraph_open", .blockOpen "paragraph" .missing),
     ("paragraph_close", .blockClose)] rfl
  exact ⟨h.1, h.2.2.2.2.2.1 initState none "" [] "" ""⟩

end FromMarkdown
